import Mathlib

/-!
Shallow embedding of the MuslimHome prayer-times application core
(`src/prayer_times.py`, `src/scheduler.py`, `src/main.py`).

Modelling conventions:
* A timezone-aware Python `datetime` is modelled by `Dt`: a calendar day
  ordinal (`Int`, mirroring `date.toordinal`), a wall-clock minute of the
  day, and the attached timezone name.  All datetime comparisons performed
  by the embedded code happen between instants carrying the same zone, so
  comparisons are the lexicographic order on (day, minute).
* Python exceptions become the inductive `PyExc`; fallible code returns
  `Except PyExc _`.
* The network / JSON boundary (`requests.get(...)` + `response.json()`)
  is a parameter: `fetch_prayer_times` receives the already-decoded
  response (`Except PyExc ApiResponse`) instead of performing I/O.
  JSON numbers are modelled as `Rat`, decoded date strings as day
  ordinals.
* `pytz`'s timezone database membership test is a function parameter
  `tzValid : String → Bool`.
* APScheduler's `BackgroundScheduler` becomes an explicit job store with a
  fresh-id counter; job callbacks are tagged by `CbTag` (a prayer callback
  with its `args=[name]`, or the refresh re-invocation lambda).
-/

instance exceptDecEq {e a : Type} [DecidableEq e] [DecidableEq a] : DecidableEq (Except e a)
  | .ok x, .ok y =>
    if h : x = y then .isTrue (by rw [h]) else .isFalse (by intro hc; cases hc; exact h rfl)
  | .ok _, .error _ => .isFalse (by intro hc; cases hc)
  | .error _, .ok _ => .isFalse (by intro hc; cases hc)
  | .error x, .error y =>
    if h : x = y then .isTrue (by rw [h]) else .isFalse (by intro hc; cases hc; exact h rfl)

/-- Timezone-aware instant: day ordinal, minute of day (wall clock), zone name. -/
structure Dt where
  day : Int
  minute : Nat
  tz : String
deriving DecidableEq

/-- Python comparison of two aware datetimes in the same zone: strict `<`. -/
def Dt.ltb (a b : Dt) : Bool :=
  decide (a.day < b.day ∨ (a.day = b.day ∧ a.minute < b.minute))

/-- Python comparison of two aware datetimes in the same zone: `<=`. -/
def Dt.leb (a b : Dt) : Bool :=
  decide (a.day < b.day ∨ (a.day = b.day ∧ a.minute ≤ b.minute))

/-- Python exceptions relevant to the embedded code. -/
inductive PyExc where
  | runtimeError (msg : String)
  | httpError
  | valueError (msg : String)
  | jobLookupError (jobId : Nat)
  | indexError
  | otherError (msg : String)
deriving DecidableEq

/-- Mirrors Python `isinstance(e, RuntimeError)` on the modelled exceptions. -/
def PyExc.isRuntimeError : PyExc → Bool
  | .runtimeError _ => true
  | _ => false

/-- prayer_times.LocationInfo (floats modelled as rationals). -/
structure LocationInfo where
  city : String
  country : String
  latitude : Option Rat
  longitude : Option Rat
  timezone : Option String
deriving DecidableEq

/-- prayer_times.PrayerInfo. -/
structure PrayerInfo where
  name : String
  time : Dt
deriving DecidableEq

/-- prayer_times.PRAYER_ORDER. -/
def PRAYER_ORDER : List String := ["Fajr", "Dhuhr", "Asr", "Maghrib", "Isha"]

/-- prayer_times.PrayerDay. -/
structure PrayerDay where
  location : LocationInfo
  hijri_date : String
  gregorian_date : Int
  prayers : List PrayerInfo
deriving DecidableEq

/-- Loop body of `PrayerDay.next_prayer`: return the first entry with
`info.time > now`, else `None`. -/
def nextPrayerAux (now : Dt) : List PrayerInfo → Option PrayerInfo
  | [] => none
  | info :: rest => if Dt.ltb now info.time then some info else nextPrayerAux now rest

/-- prayer_times.PrayerDay.next_prayer (with `now` supplied explicitly; the
Python default argument `datetime.now(...)` is a clock read outside the
embedding). -/
def PrayerDay.next_prayer (d : PrayerDay) (now : Dt) : Option PrayerInfo :=
  nextPrayerAux now d.prayers

/-- Python `dict.get(key)` on a string-to-string dict (association list). -/
def lookupStr (m : List (String × String)) (k : String) : Option String :=
  match m with
  | [] => none
  | (k0, v0) :: rest => if k0 = k then some v0 else lookupStr rest k

/-- Python `dict.get(key, default)`. -/
def lookupStrD (m : List (String × String)) (k d : String) : String :=
  (lookupStr m k).getD d

/-- The digit-and-colon reduction of `PrayerTimesService._parse_time_string`:
`"".join(ch for ch in time_str if ch.isdigit() or ch == ":")`. -/
def timeDigits (s : String) : List Char :=
  s.data.filter fun c => c.isDigit || c == ':'

/-- Python `str.split(sep)` for a one-character separator, on the character
list (`"".split(":") == [""]`, `":".split(":") == ["", ""]`). -/
def splitCharList (sep : Char) : List Char → List (List Char)
  | [] => [[]]
  | c :: rest =>
    let r := splitCharList sep rest
    if c = sep then [] :: r
    else
      match r with
      | [] => [[c]]
      | h :: t => (c :: h) :: t

/-- Python `int(s)` on the digit-only strings reachable here: fails on an
empty or non-digit string, otherwise reads the decimal value. -/
def pyIntDigits (l : List Char) : Except PyExc Nat :=
  if l ≠ [] ∧ l.all Char.isDigit then
    .ok (l.foldl (fun acc c => acc * 10 + (c.toNat - 48)) 0)
  else .error (.valueError "invalid literal for int with base 10")

/-- Second half of `_parse_time_string` after `clean` is fixed:
`hour, minute = map(int, clean.split(":"))` followed by the
`datetime(...)` construction (which validates hour and minute ranges). -/
def parseClean (clean : List Char) (tzName : String) (targetDay : Int) : Except PyExc Dt :=
  match splitCharList ':' clean with
  | [hs, ms] =>
    match pyIntDigits hs, pyIntDigits ms with
    | .ok h, .ok m =>
      if h ≤ 23 && m ≤ 59 then .ok ⟨targetDay, h * 60 + m, tzName⟩
      else .error (.valueError "hour or minute out of range")
    | _, _ => .error (.valueError "invalid literal for int with base 10")
  | _ => .error (.valueError "cannot unpack time components")

/-- PrayerTimesService._parse_time_string: keep digits and colons, truncate to
the first five characters, fall back to "00:00" when that is not five
characters long, then parse `HH:MM` on the target date in the given zone. -/
def parse_time_string (time_str : String) (tzName : String) (targetDay : Int) : Except PyExc Dt :=
  let clean0 : List Char := (timeDigits time_str).take 5
  let clean : List Char := if clean0.length ≠ 5 then ['0', '0', ':', '0', '0'] else clean0
  parseClean clean tzName targetDay

/-- Python truthiness of an optional string (`None` and `""` are falsy). -/
def truthyOptStr : Option String → Bool
  | none => false
  | some s => s ≠ ""

/-- Python `a or b` on optional floats produced by `_safe_float` (a float is
falsy when it equals `0.0`). -/
def pyOrRat (a b : Option Rat) : Option Rat :=
  match a with
  | some x => if x = 0 then b else some x
  | none => b

/-- prayer_times._safe_float at the JSON boundary: `None`/absent stays `None`,
a decoded JSON number passes through. -/
def safe_float (v : Option Rat) : Option Rat := v

/-- Decoded AlAdhan response payload (`response.json()`), holding exactly the
fields `fetch_prayer_times` reads.  Date strings already decoded (`%d-%m-%Y`
parsing of `strptime` happens at the JSON boundary; a malformed or absent
string is `none`, matching the `try/except` fallback). -/
structure ApiPayload where
  code : Option Int
  statusText : Option String
  timings : List (String × String)
  hijriDay : Option String
  hijriMonthEn : String
  hijriYear : Option String
  hijriDateText : String
  gregorianDate : Option Int
  metaTimezone : Option String
  metaLatitude : Option Rat
  metaLongitude : Option Rat
deriving DecidableEq

/-- The `requests` response object as far as the embedded code inspects it:
`raise_for_status()` raises exactly when `ok` is false. -/
structure ApiResponse where
  ok : Bool
  payload : ApiPayload
deriving DecidableEq

/-- PrayerTimesService._resolve_timezone:
`(data.get("meta", {}) or {}).get("timezone") or location.timezone`, default
to UTC when falsy or unknown to the timezone database `tzValid`. -/
def resolve_timezone (location : LocationInfo) (p : ApiPayload) (tzValid : String → Bool) : String :=
  let cand : Option String := if truthyOptStr p.metaTimezone then p.metaTimezone else location.timezone
  let name0 : String := cand.getD ""
  let name : String := if name0 = "" then "UTC" else name0
  if tzValid name then name else "UTC"

/-- The list comprehension of `fetch_prayer_times` building the five
`PrayerInfo` entries from `PRAYER_ORDER` (left to right, first raised
exception propagates):
`PrayerInfo(name=p, time=_parse_time_string(timings.get(p, "00:00"), tz, d))`. -/
def buildPrayers (timings : List (String × String)) (tzName : String) (targetDay : Int) :
    List String → Except PyExc (List PrayerInfo)
  | [] => .ok []
  | p :: rest =>
    match parse_time_string (lookupStrD timings p "00:00") tzName targetDay with
    | .error e => .error e
    | .ok t =>
      match buildPrayers timings tzName targetDay rest with
      | .error e => .error e
      | .ok others => .ok (⟨p, t⟩ :: others)

/-- Python repr used inside the f-string
`f"Invalid response from AlAdhan API: {payload.get('status')}"`. -/
def pyShowOptStr : Option String → String
  | none => "None"
  | some s => s

/-- The hijri date text assembly of `fetch_prayer_times`. -/
def hijriText (p : ApiPayload) : String :=
  if truthyOptStr p.hijriDay && (p.hijriMonthEn ≠ "") && truthyOptStr p.hijriYear then
    (p.hijriDay.getD "") ++ " " ++ p.hijriMonthEn ++ " " ++ (p.hijriYear.getD "") ++ " AH"
  else p.hijriDateText

/-- PrayerTimesService.fetch_prayer_times from the decoded HTTP response
onward (`resp` is what `requests.get` produced, or the network exception it
raised; the by-city versus by-coordinates branch only chooses the request
parameters and is absorbed into `resp`). -/
def fetch_prayer_times (resp : Except PyExc ApiResponse) (location : LocationInfo)
    (targetDay : Int) (tzValid : String → Bool) : Except PyExc PrayerDay :=
  match resp with
  | .error e => .error e
  | .ok r =>
    if !r.ok then .error .httpError
    else if r.payload.code ≠ some 200 then
      .error (.runtimeError ("Invalid response from AlAdhan API: " ++ pyShowOptStr r.payload.statusText))
    else
      let p := r.payload
      let tzName := resolve_timezone location p tzValid
      match buildPrayers p.timings tzName targetDay PRAYER_ORDER with
      | .error e => .error e
      | .ok prayers =>
        .ok { location :=
                { location with
                    latitude := pyOrRat (safe_float p.metaLatitude) location.latitude
                    longitude := pyOrRat (safe_float p.metaLongitude) location.longitude
                    timezone := some tzName }
              hijri_date := hijriText p
              gregorian_date := p.gregorianDate.getD targetDay
              prayers := prayers }

/-- Callback identity armed with a job: either the prayer callback applied to
`args=[name]` (scheduler.py line 49), or the refresh lambda
`lambda: QTimer.singleShot(0, self.refresh_prayer_times)` that re-invokes the
refresh cycle (main.py line 351). -/
inductive CbTag where
  | prayerCb (name : String)
  | refreshCb
deriving DecidableEq

/-- One job armed inside APScheduler's store: identity, fire instant, callback. -/
structure TimerJob where
  id : Nat
  runDate : Dt
  cb : CbTag
deriving DecidableEq

/-- APScheduler BackgroundScheduler as the embedded code drives it: the job
store, a fresh-id supply (ids are abstract unique strings in APScheduler,
numbered here), and the configured timezone. -/
structure BackgroundScheduler where
  jobs : List TimerJob
  nextId : Nat
  tz : String
deriving DecidableEq

/-- APScheduler `add_job(callback, DateTrigger(run_date), args)`. -/
def add_job (s : BackgroundScheduler) (runDate : Dt) (cb : CbTag) : TimerJob × BackgroundScheduler :=
  let job : TimerJob := ⟨s.nextId, runDate, cb⟩
  (job, { s with jobs := s.jobs ++ [job], nextId := s.nextId + 1 })

/-- APScheduler `remove_job(job_id)`: raises `JobLookupError` when no armed
job has that id (for these one-off jobs, also the case after natural firing). -/
def remove_job (s : BackgroundScheduler) (i : Nat) : Except PyExc BackgroundScheduler :=
  if s.jobs.any fun j => j.id == i then
    .ok { s with jobs := s.jobs.filter fun j => j.id ≠ i }
  else .error (.jobLookupError i)

/-- The call `remove_job` wrapped in scheduler.suppress_not_found: a `JobLookupError`
is swallowed, leaving the store untouched. -/
def remove_job_suppressed (s : BackgroundScheduler) (i : Nat) : BackgroundScheduler :=
  match remove_job s i with
  | .ok s1 => s1
  | .error _ => s

/-- scheduler.PrayerScheduler state: the wrapped store, the tracked prayer job
ids `_jobs`, and `_refresh_job_id`. -/
structure PrayerScheduler where
  sched : BackgroundScheduler
  jobs : List Nat
  refresh_job_id : Option Nat
deriving DecidableEq

/-- scheduler.PrayerScheduler._clear_prayer_jobs: remove every tracked id
under `suppress_not_found`, then clear the tracking list. -/
def clear_prayer_jobs (st : PrayerScheduler) : PrayerScheduler :=
  { st with sched := st.jobs.foldl remove_job_suppressed st.sched, jobs := [] }

/-- The arming loop of `schedule_prayers`: skip entries with
`info.time <= now`, otherwise `add_job` and track the new id. -/
def addPrayerJobs (st : PrayerScheduler) (now : Dt) : List PrayerInfo → PrayerScheduler
  | [] => st
  | info :: rest =>
    if Dt.leb info.time now then addPrayerJobs st now rest
    else
      let (job, s1) := add_job st.sched info.time (.prayerCb info.name)
      addPrayerJobs { st with sched := s1, jobs := st.jobs ++ [job.id] } now rest

/-- scheduler.PrayerScheduler.schedule_prayers (the clock read
`datetime.now(self._scheduler.timezone)` is the explicit `now`). -/
def schedule_prayers (st : PrayerScheduler) (prayers : List PrayerInfo) (now : Dt) : PrayerScheduler :=
  addPrayerJobs (clear_prayer_jobs st) now prayers

/-- scheduler.PrayerScheduler.schedule_refresh: remove the recorded refresh
job if any (NOT wrapped in `suppress_not_found` — a `JobLookupError`
propagates), then arm one new one-off job and record its id. -/
def schedule_refresh (st : PrayerScheduler) (next_run : Dt) : Except PyExc PrayerScheduler :=
  match st.refresh_job_id with
  | some jid =>
    match remove_job st.sched jid with
    | .error e => .error e
    | .ok s1 =>
      let (job, s2) := add_job s1 next_run .refreshCb
      .ok { st with sched := s2, refresh_job_id := some job.id }
  | none =>
    let (job, s2) := add_job st.sched next_run .refreshCb
    .ok { st with sched := s2, refresh_job_id := some job.id }

/-- The armed prayer jobs: store entries whose id is tracked in `_jobs`. -/
def armedPrayerJobs (st : PrayerScheduler) : List TimerJob :=
  st.sched.jobs.filter fun j => st.jobs.contains j.id

/-- The armed refresh jobs (fire instant and callback): store entries whose
id is the recorded `_refresh_job_id`. -/
def armedRefreshMap (st : PrayerScheduler) : List (Dt × CbTag) :=
  let sel : List TimerJob :=
    match st.refresh_job_id with
    | none => []
    | some i => st.sched.jobs.filter fun j => j.id == i
  sel.map fun j => (j.runDate, j.cb)

/-- Reachable-state invariant of `PrayerScheduler`: every stored and tracked
id was issued by the fresh-id counter, and the recorded refresh job (if any)
is still armed and is not tracked as a prayer job. -/
def goodSched (st : PrayerScheduler) : Bool :=
  (st.sched.jobs.all fun j => j.id < st.sched.nextId) &&
  (st.jobs.all fun i => i < st.sched.nextId) &&
  (match st.refresh_job_id with
   | none => true
   | some i => (st.sched.jobs.any fun j => j.id == i) && !(st.jobs.contains i))

/-- main.PrayerApp state, restricted to the fields the refresh handlers
touch; `dialogs` records the warning dialogs shown. -/
structure AppState where
  scheduler : Option PrayerScheduler
  status : String
  dialogs : List String
  current_prayer_day : Option PrayerDay
deriving DecidableEq

/-- main.PrayerApp._ensure_scheduler: reuse the live scheduler when its zone
matches, otherwise shut it down (dropping every armed job) and build and
start a fresh one for the new zone. -/
def ensure_scheduler (cur : Option PrayerScheduler) (tzName : String) : PrayerScheduler :=
  match cur with
  | some s => if s.sched.tz = tzName then s else ⟨⟨[], 0, tzName⟩, [], none⟩
  | none => ⟨⟨[], 0, tzName⟩, [], none⟩

/-- main.PrayerApp._next_refresh_time: 00:05 on the calendar day after the
reference instant's date, in the reference's zone (UTC when naive; a naive
datetime is modelled by an empty zone name). -/
def next_refresh_time (reference : Dt) : Dt :=
  let tzName := if reference.tz = "" then "UTC" else reference.tz
  ⟨reference.day + 1, 5, tzName⟩

/-- main.PrayerApp._handle_refresh_error: pick the location-specific message
exactly when the exception is a `RuntimeError`, set the status bar to it and
show it as a warning dialog.  Nothing else is touched. -/
def handle_refresh_error (app : AppState) (strings : List (String × String)) (error : PyExc) : AppState :=
  let message :=
    if error.isRuntimeError then
      lookupStrD strings "error_location" "Unable to detect location. Please set it manually."
    else
      lookupStrD strings "error_fetch" "Unable to fetch prayer times. Please try again."
  { app with status := message, dialogs := app.dialogs ++ [message] }

/-- main.PrayerApp._handle_refresh_success, restricted to its state and
scheduling effects (rendering, weather display and inspiration delivery are
presentation-only): store the day, ensure a scheduler for the first prayer's
zone, replace the prayer jobs, then arm the refresh job at
`_next_refresh_time(prayers[0].time)` with the refresh re-invocation
callback.  Indexing `prayers[0]` on an empty list raises `IndexError`; a
`JobLookupError` escaping `schedule_refresh` propagates. -/
def handle_refresh_success (app : AppState) (strings : List (String × String))
    (day : PrayerDay) (now : Dt) : Except PyExc AppState :=
  match day.prayers with
  | [] => .error .indexError
  | p0 :: _ =>
    let tzName := p0.time.tz
    let s0 := ensure_scheduler app.scheduler tzName
    let s1 := schedule_prayers s0 day.prayers now
    match schedule_refresh s1 (next_refresh_time p0.time) with
    | .error e => .error e
    | .ok s2 =>
      .ok { app with
              scheduler := some s2
              current_prayer_day := some day
              status := lookupStrD strings "updated" "Prayer times updated." }

/-- main.PrayerApp._resolve_location: automatic mode tries IP detection and
falls back to the cached then the configured location, raising
`RuntimeError("Automatic location not configured")` when none is available;
manual mode requires a cached location with nonempty city and country, else
`RuntimeError("Manual location not configured")`. -/
def resolve_location (auto_location : Bool) (detect : Except PyExc LocationInfo)
    (current : Option LocationInfo) (cfgFallback : Option LocationInfo) :
    Except PyExc LocationInfo :=
  if auto_location then
    match detect with
    | .ok loc => .ok loc
    | .error _ =>
      match current with
      | some loc => .ok loc
      | none =>
        match cfgFallback with
        | some fb => .ok fb
        | none => .error (.runtimeError "Automatic location not configured")
  else
    match current with
    | some loc =>
      if loc.city = "" || loc.country = "" then .error (.runtimeError "Manual location not configured")
      else .ok loc
    | none => .error (.runtimeError "Manual location not configured")

/-- One handler invocation recorded by the instrumented dispatch bridge. -/
structure HandlerLog (A : Type) where
  successCalls : List A
  errorCalls : List PyExc
deriving DecidableEq

/-- A Qt signal emission of `_AsyncDispatcher` (`success` or `error`). -/
inductive SignalEmission (A : Type) where
  | success (value : A)
  | error (exc : PyExc)
deriving DecidableEq

/-- The `_done` future callback of `PrayerApp._run_async`: read the future's
outcome under `try/except`; a raised exception is emitted on the `error`
signal, a normal return on the `success` signal — exactly one emission. -/
def doneCallback {A : Type} (futureOutcome : Except PyExc A) : SignalEmission A :=
  match futureOutcome with
  | .ok r => .success r
  | .error e => .error e

/-- Delivery of one queued emission on the consuming context by
`_AsyncDispatcher._handle_success` / `_handle_error`: invoke the matching
handler once, then discard the ticket from the live set (`live := false`). -/
def deliverEmission {A : Type} (e : SignalEmission A) (log : HandlerLog A) :
    HandlerLog A × Bool :=
  match e with
  | .success v => ({ log with successCalls := log.successCalls ++ [v] }, false)
  | .error ex => ({ log with errorCalls := log.errorCalls ++ [ex] }, false)

/-- PrayerApp._run_async end to end for one ticket: run the work function on
the pool, pass its outcome through `_done` and deliver the single emission;
the result is the log of handler invocations for this ticket. -/
def runAsyncLog {A : Type} (work : Unit → Except PyExc A) : HandlerLog A :=
  (deliverEmission (doneCallback (work ())) ⟨[], []⟩).1

/-- The jobs armed by one `schedule_prayers` pass over the future entries,
starting from fresh id `startId`. -/
def newJobsFor (startId : Nat) (now : Dt) : List PrayerInfo → List TimerJob
  | [] => []
  | info :: rest =>
    if Dt.leb info.time now then newJobsFor startId now rest
    else ⟨startId, info.time, .prayerCb info.name⟩ :: newJobsFor (startId + 1) now rest

/-- Strict increase of a prayer list's times (Fajr<Dhuhr<Asr<Maghrib<Isha). -/
def strictlyIncB : List PrayerInfo → Bool
  | [] => true
  | [_] => true
  | a :: b :: rest => Dt.ltb a.time b.time && strictlyIncB (b :: rest)

/-- The comparisons are complementary: `not (a <= b)` is `b < a`. -/
theorem dt_not_leb (a b : Dt) : (! Dt.leb a b) = Dt.ltb b a := by
  simp only [Dt.leb, Dt.ltb, ← decide_not, decide_eq_decide]
  omega

theorem nextPrayerAux_eq_dropWhile (now : Dt) (l : List PrayerInfo) :
    nextPrayerAux now l = (l.dropWhile fun q => Dt.leb q.time now).head? := by
  induction l with
  | nil => rfl
  | cons a rest ih =>
    have hcmp : Dt.leb a.time now = ! Dt.ltb now a.time := by
      rw [← dt_not_leb a.time now, Bool.not_not]
    cases h : Dt.ltb now a.time with
    | true =>
      have : Dt.leb a.time now = false := by rw [hcmp, h]; rfl
      simp [nextPrayerAux, h, List.dropWhile, this]
    | false =>
      have : Dt.leb a.time now = true := by rw [hcmp, h]; rfl
      simp [nextPrayerAux, h, List.dropWhile, this, ih]

/-- C3: `next_prayer(now)` returns the first entry in list order whose time is
strictly greater than `now` (an entry at exactly `now` counts as passed), and
`none` exactly when no entry's time exceeds `now`. -/
theorem c3_next_prayer_first_future (d : PrayerDay) (now : Dt) :
    d.next_prayer now = (d.prayers.dropWhile fun q => Dt.leb q.time now).head?
    ∧ (d.next_prayer now = none ↔ ∀ p ∈ d.prayers, Dt.leb p.time now = true) := by
  have heq := nextPrayerAux_eq_dropWhile now d.prayers
  refine ⟨heq, ?_⟩
  rw [PrayerDay.next_prayer, heq, List.head?_eq_none_iff, List.dropWhile_eq_nil_iff]

/-- Witness for C3 at a concrete day and instant. -/
theorem c3_witness :
    (PrayerDay.mk ⟨"T", "C", none, none, none⟩ "" 0
        [⟨"Fajr", ⟨0, 310, "UTC"⟩⟩, ⟨"Dhuhr", ⟨0, 750, "UTC"⟩⟩]).next_prayer ⟨0, 310, "UTC"⟩
      = ((([⟨"Fajr", ⟨0, 310, "UTC"⟩⟩, ⟨"Dhuhr", ⟨0, 750, "UTC"⟩⟩] : List PrayerInfo).dropWhile
          fun q => Dt.leb q.time ⟨0, 310, "UTC"⟩).head?) :=
  (c3_next_prayer_first_future _ _).1

/-- C10 counterexample: the timing string "04:53:00" reduces to eight digits
and colons — not five — yet `_parse_time_string` does NOT fall back to 00:00:
the reduction is truncated to its first five characters before the length
check, so the result is 04:53 (minute 293 of the day). -/
theorem c10_counterexample :
    parse_time_string "04:53:00" "UTC" 0 = .ok ⟨0, 293, "UTC"⟩
    ∧ (timeDigits "04:53:00").length = 8
    ∧ parse_time_string "04:53:00" "UTC" 0 ≠ .ok ⟨0, 0, "UTC"⟩ := by
  refine ⟨by decide, by decide, by decide⟩

/-- C10 (amended): a prayer whose timing is absent from the response, or whose
timing string keeps fewer than five digit-or-colon characters, is assigned
00:00 local time on the target date.  (A reduction of five or more characters
is instead truncated to its first five and parsed.) -/
theorem c10_missing_or_short_timing_defaults (timings : List (String × String))
    (p tzName : String) (d : Int)
    (h : lookupStr timings p = none ∨ (timeDigits (lookupStrD timings p "00:00")).length < 5) :
    parse_time_string (lookupStrD timings p "00:00") tzName d = .ok ⟨d, 0, tzName⟩ := by
  rcases h with h | h
  · have hs : lookupStrD timings p "00:00" = "00:00" := by
      rw [lookupStrD, h]; rfl
    rw [hs]
    rfl
  · rw [parse_time_string]
    have hlen : ((timeDigits (lookupStrD timings p "00:00")).take 5).length ≠ 5 := by
      rw [List.length_take]
      omega
    rw [if_pos hlen]
    rfl

/-- Witness for C10 (amended): an empty timings dict omits "Fajr", which hence
gets 00:00 on the target date. -/
theorem c10_witness :
    (lookupStr [] "Fajr" = none ∨ (timeDigits (lookupStrD [] "Fajr" "00:00")).length < 5)
    ∧ parse_time_string (lookupStrD [] "Fajr" "00:00") "UTC" 0 = .ok ⟨0, 0, "UTC"⟩ :=
  ⟨Or.inl rfl, c10_missing_or_short_timing_defaults [] "Fajr" "UTC" 0 (Or.inl rfl)⟩

/-- C1: for every task submitted through the dispatch bridge, exactly one of
the ticket's handlers is invoked, exactly once — `onSuccess` with the work
function's return value on normal return, `onError` with the raised exception
otherwise; never both and never neither. -/
theorem c1_dispatch_exactly_once {A : Type} (work : Unit → Except PyExc A) :
    ((runAsyncLog work).successCalls.length + (runAsyncLog work).errorCalls.length = 1)
    ∧ (∀ v : A, work () = .ok v → runAsyncLog work = ⟨[v], []⟩)
    ∧ (∀ e : PyExc, work () = .error e → runAsyncLog work = ⟨[], [e]⟩) := by
  unfold runAsyncLog doneCallback deliverEmission
  cases h : work () with
  | ok v => refine ⟨rfl, ?_, ?_⟩ <;> intro x hx <;> simp_all
  | error e => refine ⟨rfl, ?_, ?_⟩ <;> intro x hx <;> simp_all

/-- Witness for C1 at a concrete successful work function. -/
theorem c1_witness :
    ((fun _ : Unit => (Except.ok 3 : Except PyExc Nat)) () = Except.ok 3)
    ∧ runAsyncLog (fun _ : Unit => (Except.ok 3 : Except PyExc Nat)) = ⟨[3], []⟩ :=
  ⟨rfl, (c1_dispatch_exactly_once (fun _ : Unit => (Except.ok 3 : Except PyExc Nat))).2.1 3 rfl⟩

/-- C6: the refresh failure handler only surfaces a status message and a
warning dialog; the scheduler handle — and with it every armed prayer job and
the armed refresh job — is left completely unchanged. -/
theorem c6_error_handler_leaves_scheduler_untouched (app : AppState)
    (strings : List (String × String)) (e : PyExc) :
    (handle_refresh_error app strings e).scheduler = app.scheduler
    ∧ (handle_refresh_error app strings e).current_prayer_day = app.current_prayer_day
    ∧ (handle_refresh_error app strings e).scheduler.map armedPrayerJobs
        = app.scheduler.map armedPrayerJobs
    ∧ (handle_refresh_error app strings e).scheduler.map armedRefreshMap
        = app.scheduler.map armedRefreshMap
    ∧ (handle_refresh_error app strings e).dialogs
        = app.dialogs ++ [(handle_refresh_error app strings e).status] := by
  unfold handle_refresh_error
  refine ⟨rfl, rfl, rfl, rfl, rfl⟩

theorem remove_job_suppressed_eq_filter (s : BackgroundScheduler) (i : Nat) :
    remove_job_suppressed s i = { s with jobs := s.jobs.filter fun j => j.id ≠ i } := by
  unfold remove_job_suppressed remove_job
  cases h : s.jobs.any fun j => j.id == i with
  | true => rfl
  | false =>
    have hkeep : List.filter (fun j => !decide (j.id = i)) s.jobs = s.jobs := by
      apply List.filter_eq_self.mpr
      intro j hj
      have := (List.any_eq_false.mp h) j hj
      simpa using this
    simp [hkeep]

theorem foldl_remove_suppressed (ids : List Nat) :
    ∀ s : BackgroundScheduler,
      ids.foldl remove_job_suppressed s
        = { s with jobs := s.jobs.filter fun j => ! ids.contains j.id } := by
  induction ids with
  | nil =>
    intro s
    have : s.jobs.filter (fun j => ! ([] : List Nat).contains j.id) = s.jobs := by
      apply List.filter_eq_self.mpr
      intro j _
      simp
    simp [List.foldl, this]
  | cons i rest ih =>
    intro s
    rw [List.foldl_cons, ih, remove_job_suppressed_eq_filter]
    simp only [List.filter_filter]
    congr 1
    apply List.filter_congr
    intro j _
    simp [List.contains_cons, Bool.not_or, Bool.and_comm]

theorem addPrayerJobs_eq (prayers : List PrayerInfo) :
    ∀ (st : PrayerScheduler) (now : Dt),
      addPrayerJobs st now prayers =
        { sched := { jobs := st.sched.jobs ++ newJobsFor st.sched.nextId now prayers,
                     nextId := st.sched.nextId + (newJobsFor st.sched.nextId now prayers).length,
                     tz := st.sched.tz },
          jobs := st.jobs ++ (newJobsFor st.sched.nextId now prayers).map TimerJob.id,
          refresh_job_id := st.refresh_job_id } := by
  induction prayers with
  | nil => intro st now; simp [addPrayerJobs, newJobsFor]
  | cons info rest ih =>
    intro st now
    cases h : Dt.leb info.time now with
    | true => simp [addPrayerJobs, newJobsFor, h, ih]
    | false =>
      simp [addPrayerJobs, newJobsFor, h, add_job, ih, List.append_assoc]
      omega

theorem newJobsFor_map (prayers : List PrayerInfo) :
    ∀ (startId : Nat) (now : Dt),
      (newJobsFor startId now prayers).map (fun j => (j.cb, j.runDate))
        = (prayers.filter fun p => Dt.ltb now p.time).map
            fun p => (CbTag.prayerCb p.name, p.time) := by
  induction prayers with
  | nil => intro s now; rfl
  | cons p rest ih =>
    intro s now
    have hflip : Dt.ltb now p.time = ! Dt.leb p.time now := (dt_not_leb p.time now).symm
    cases h : Dt.leb p.time now with
    | true => simp [newJobsFor, h, hflip, ih]
    | false => simp [newJobsFor, h, hflip, ih]

theorem newJobsFor_id_bounds (prayers : List PrayerInfo) :
    ∀ (startId : Nat) (now : Dt) (j : TimerJob), j ∈ newJobsFor startId now prayers →
      startId ≤ j.id ∧ j.id < startId + (newJobsFor startId now prayers).length := by
  induction prayers with
  | nil => intro s now j hj; cases hj
  | cons p rest ih =>
    intro s now j hj
    cases h : Dt.leb p.time now with
    | true =>
      rw [newJobsFor, if_pos (by rw [h])] at hj ⊢
      exact ih s now j hj
    | false =>
      rw [newJobsFor, if_neg (by rw [h]; exact Bool.false_ne_true)] at hj ⊢
      rcases List.mem_cons.mp hj with hj | hj
      · subst hj; simp
      · have := ih (s + 1) now j hj
        constructor
        · omega
        · simp only [List.length_cons]
          omega

theorem clear_prayer_jobs_eq (st : PrayerScheduler) :
    clear_prayer_jobs st =
      { sched := { jobs := st.sched.jobs.filter fun j => ! st.jobs.contains j.id,
                   nextId := st.sched.nextId,
                   tz := st.sched.tz },
        jobs := [],
        refresh_job_id := st.refresh_job_id } := by
  unfold clear_prayer_jobs
  rw [foldl_remove_suppressed]

/-- Destructured form of `goodSched`. -/
theorem goodSched_iff (st : PrayerScheduler) :
    goodSched st = true ↔
      (∀ j ∈ st.sched.jobs, j.id < st.sched.nextId)
      ∧ (∀ i ∈ st.jobs, i < st.sched.nextId)
      ∧ (∀ i, st.refresh_job_id = some i →
          (∃ j ∈ st.sched.jobs, j.id = i) ∧ i ∉ st.jobs) := by
  unfold goodSched
  cases hr : st.refresh_job_id with
  | none =>
    simp [List.all_eq_true]
  | some i =>
    simp only [Bool.and_eq_true, List.all_eq_true, List.any_eq_true]
    constructor
    · rintro ⟨⟨h1, h2⟩, h3, h4⟩
      refine ⟨fun j hj => by simpa using h1 j hj, fun k hk => by simpa using h2 k hk, ?_⟩
      rintro k hk
      injection hk with hk
      subst hk
      have h4f : st.jobs.contains i = false := by simpa using h4
      refine ⟨?_, ?_⟩
      · obtain ⟨j, hj, hij⟩ := h3
        exact ⟨j, hj, by simpa using hij⟩
      · intro hmem
        have hc : st.jobs.contains i = true := List.elem_iff.mpr hmem
        rw [hc] at h4f
        cases h4f
    · rintro ⟨h1, h2, h3⟩
      obtain ⟨⟨j, hj, hij⟩, hnot⟩ := h3 i rfl
      refine ⟨⟨fun j hj => by simpa using h1 j hj, fun k hk => by simpa using h2 k hk⟩,
        ⟨j, hj, by simpa using hij⟩, ?_⟩
      simpa using hnot

/-- C2: `schedule_prayers(prayers, callback)` leaves armed exactly one job per
entry whose time is strictly after `now` — firing the prayer callback with
that entry's name at that entry's time — and no prayer job armed before the
call survives it (replace-all semantics: a second call leaves exactly the
second call's jobs). -/
theorem c2_schedule_prayers_replace_all (st : PrayerScheduler) (prayers : List PrayerInfo)
    (now : Dt) (hg : goodSched st = true) :
    ((armedPrayerJobs (schedule_prayers st prayers now)).map fun j => (j.cb, j.runDate))
      = ((prayers.filter fun p => Dt.ltb now p.time).map fun p => (CbTag.prayerCb p.name, p.time))
    ∧ ∀ i ∈ st.jobs, ∀ j ∈ (schedule_prayers st prayers now).sched.jobs, j.id ≠ i := by
  obtain ⟨h1, h2, -⟩ := (goodSched_iff st).mp hg
  have hform : schedule_prayers st prayers now =
      { sched := { jobs := (st.sched.jobs.filter fun j => ! st.jobs.contains j.id)
                      ++ newJobsFor st.sched.nextId now prayers,
                   nextId := st.sched.nextId + (newJobsFor st.sched.nextId now prayers).length,
                   tz := st.sched.tz },
        jobs := (newJobsFor st.sched.nextId now prayers).map TimerJob.id,
        refresh_job_id := st.refresh_job_id } := by
    unfold schedule_prayers
    rw [clear_prayer_jobs_eq, addPrayerJobs_eq]
    simp
  constructor
  · rw [hform]
    unfold armedPrayerJobs
    simp only [List.filter_append]
    have hdrop : (st.sched.jobs.filter fun j => ! st.jobs.contains j.id).filter
        (fun j => ((newJobsFor st.sched.nextId now prayers).map TimerJob.id).contains j.id)
        = [] := by
      apply List.filter_eq_nil_iff.mpr
      intro j hj hc
      have hmem := (List.mem_filter.mp hj).1
      have hlt := h1 j hmem
      have : j.id ∈ (newJobsFor st.sched.nextId now prayers).map TimerJob.id :=
        List.elem_iff.mp hc
      obtain ⟨k, hk, hkid⟩ := List.mem_map.mp this
      have := (newJobsFor_id_bounds prayers st.sched.nextId now k hk).1
      omega
    have hkeep : (newJobsFor st.sched.nextId now prayers).filter
        (fun j => ((newJobsFor st.sched.nextId now prayers).map TimerJob.id).contains j.id)
        = newJobsFor st.sched.nextId now prayers := by
      apply List.filter_eq_self.mpr
      intro j hj
      exact List.elem_iff.mpr (List.mem_map_of_mem TimerJob.id hj)
    rw [hdrop, hkeep, List.nil_append, newJobsFor_map]
  · intro i hi j hj
    rw [hform] at hj
    rcases List.mem_append.mp hj with hj | hj
    · have hpred := (List.mem_filter.mp hj).2
      have hnotmem : j.id ∉ st.jobs := by
        intro hmem
        have helem := List.elem_iff.mpr hmem
        simp only [helem] at hpred
        exact Bool.noConfusion hpred
      intro heq
      exact hnotmem (heq ▸ hi)
    · have := (newJobsFor_id_bounds prayers st.sched.nextId now j hj).1
      have := h2 i hi
      omega

/-- Witness for C2: a scheduler with one stale armed prayer job, one past and
one future entry — after the call exactly the future entry's job is armed and
the stale job is gone. -/
theorem c2_witness :
    goodSched ⟨⟨[⟨0, ⟨0, 300, "UTC"⟩, .prayerCb "Fajr"⟩], 1, "UTC"⟩, [0], none⟩ = true
    ∧ (((armedPrayerJobs (schedule_prayers
          ⟨⟨[⟨0, ⟨0, 300, "UTC"⟩, .prayerCb "Fajr"⟩], 1, "UTC"⟩, [0], none⟩
          [⟨"Fajr", ⟨0, 300, "UTC"⟩⟩, ⟨"Dhuhr", ⟨0, 750, "UTC"⟩⟩] ⟨0, 360, "UTC"⟩)).map
            fun j => (j.cb, j.runDate))
        = ((([⟨"Fajr", ⟨0, 300, "UTC"⟩⟩, ⟨"Dhuhr", ⟨0, 750, "UTC"⟩⟩] : List PrayerInfo).filter
            fun p => Dt.ltb ⟨0, 360, "UTC"⟩ p.time).map
              fun p => (CbTag.prayerCb p.name, p.time))
        ∧ ∀ i ∈ [0], ∀ j ∈ (schedule_prayers
            ⟨⟨[⟨0, ⟨0, 300, "UTC"⟩, .prayerCb "Fajr"⟩], 1, "UTC"⟩, [0], none⟩
            [⟨"Fajr", ⟨0, 300, "UTC"⟩⟩, ⟨"Dhuhr", ⟨0, 750, "UTC"⟩⟩] ⟨0, 360, "UTC"⟩).sched.jobs,
            j.id ≠ i) :=
  ⟨by decide,
   c2_schedule_prayers_replace_all
     ⟨⟨[⟨0, ⟨0, 300, "UTC"⟩, .prayerCb "Fajr"⟩], 1, "UTC"⟩, [0], none⟩
     [⟨"Fajr", ⟨0, 300, "UTC"⟩⟩, ⟨"Dhuhr", ⟨0, 750, "UTC"⟩⟩] ⟨0, 360, "UTC"⟩ (by decide)⟩

theorem filter_eq_id_nil (l : List TimerJob) (n : Nat) (h : ∀ j ∈ l, j.id < n) :
    (l.filter fun j => j.id == n) = [] := by
  apply List.filter_eq_nil_iff.mpr
  intro j hj hc
  have := h j hj
  have : j.id = n := by simpa using hc
  omega

theorem schedule_refresh_spec (st : PrayerScheduler) (r : Dt) (hg : goodSched st = true) :
    ∃ st2, schedule_refresh st r = .ok st2
      ∧ goodSched st2 = true
      ∧ armedRefreshMap st2 = [(r, .refreshCb)]
      ∧ st2.jobs = st.jobs
      ∧ st2.sched.tz = st.sched.tz
      ∧ ∀ i, st.refresh_job_id = some i → ∀ j ∈ st2.sched.jobs, j.id ≠ i := by
  obtain ⟨h1, h2, h3⟩ := (goodSched_iff st).mp hg
  cases hr : st.refresh_job_id with
  | none =>
    refine ⟨⟨⟨st.sched.jobs ++ [⟨st.sched.nextId, r, .refreshCb⟩], st.sched.nextId + 1,
        st.sched.tz⟩, st.jobs, some st.sched.nextId⟩, ?_, ?_, ?_, rfl, rfl, ?_⟩
    · simp only [schedule_refresh, hr, add_job]
    · apply (goodSched_iff _).mpr
      dsimp only
      refine ⟨?_, ?_, ?_⟩
      · intro j hj
        rcases List.mem_append.mp hj with hj | hj
        · have := h1 j hj; omega
        · rw [List.mem_singleton.mp hj]; dsimp only; omega
      · intro i hi
        have := h2 i hi; omega
      · intro i hi
        injection hi with hi
        subst hi
        refine ⟨⟨_, List.mem_append_right _ (List.mem_singleton.mpr rfl), rfl⟩, ?_⟩
        intro hmem
        have := h2 _ hmem
        omega
    · unfold armedRefreshMap
      simp only [List.filter_append, filter_eq_id_nil st.sched.jobs st.sched.nextId h1]
      simp
    · intro i hi
      exact Option.noConfusion hi
  | some jid =>
    obtain ⟨⟨jw, hjw, hjwid⟩, hnotrack⟩ := h3 jid hr
    have hany : (st.sched.jobs.any fun j => j.id == jid) = true :=
      List.any_eq_true.mpr ⟨jw, hjw, by simpa using hjwid⟩
    have hfsub : ∀ j ∈ st.sched.jobs.filter (fun j => decide (j.id ≠ jid)),
        j ∈ st.sched.jobs := fun j hj => (List.mem_filter.mp hj).1
    refine ⟨⟨⟨(st.sched.jobs.filter fun j => decide (j.id ≠ jid))
          ++ [⟨st.sched.nextId, r, .refreshCb⟩], st.sched.nextId + 1,
        st.sched.tz⟩, st.jobs, some st.sched.nextId⟩, ?_, ?_, ?_, rfl, rfl, ?_⟩
    · simp only [schedule_refresh, hr, remove_job, if_pos hany, add_job]
    · apply (goodSched_iff _).mpr
      dsimp only
      refine ⟨?_, ?_, ?_⟩
      · intro j hj
        rcases List.mem_append.mp hj with hj | hj
        · have := h1 j (hfsub j hj); omega
        · rw [List.mem_singleton.mp hj]; dsimp only; omega
      · intro i hi
        have := h2 i hi; omega
      · intro i hi
        injection hi with hi
        subst hi
        refine ⟨⟨_, List.mem_append_right _ (List.mem_singleton.mpr rfl), rfl⟩, ?_⟩
        intro hmem
        have := h2 _ hmem
        omega
    · unfold armedRefreshMap
      have hnil : ((st.sched.jobs.filter fun j => decide (j.id ≠ jid)).filter
          fun j => j.id == st.sched.nextId) = [] :=
        filter_eq_id_nil _ _ (fun j hj => h1 j (hfsub j hj))
      simp only [List.filter_append, hnil]
      simp
    · intro i hi j hj
      injection hi with hi
      subst hi
      rcases List.mem_append.mp hj with hj | hj
      · have := (List.mem_filter.mp hj).2
        simpa using this
      · rw [List.mem_singleton.mp hj]
        have := h1 jw hjw
        dsimp only
        omega

/-- C8: `schedule_refresh` cancels the recorded refresh job and arms exactly
one new one-off job at `next_run`; two consecutive calls leave armed exactly
the second call's refresh job, so at most one refresh job is ever armed. -/
theorem c8_schedule_refresh_replace (st : PrayerScheduler) (r1 r2 : Dt)
    (hg : goodSched st = true) :
    ∃ st1 st2, schedule_refresh st r1 = .ok st1 ∧ schedule_refresh st1 r2 = .ok st2
      ∧ armedRefreshMap st1 = [(r1, .refreshCb)]
      ∧ armedRefreshMap st2 = [(r2, .refreshCb)]
      ∧ (∀ i, st.refresh_job_id = some i → ∀ j ∈ st1.sched.jobs, j.id ≠ i)
      ∧ (∀ i, st1.refresh_job_id = some i → ∀ j ∈ st2.sched.jobs, j.id ≠ i) := by
  obtain ⟨st1, hok1, hg1, ha1, -, -, hgone1⟩ := schedule_refresh_spec st r1 hg
  obtain ⟨st2, hok2, hg2, ha2, -, -, hgone2⟩ := schedule_refresh_spec st1 r2 hg1
  exact ⟨st1, st2, hok1, hok2, ha1, ha2, hgone1, hgone2⟩

/-- Witness for C8 at a concrete scheduler with no recorded refresh job. -/
theorem c8_witness :
    goodSched ⟨⟨[], 0, "UTC"⟩, [], none⟩ = true
    ∧ ∃ st1 st2,
        schedule_refresh ⟨⟨[], 0, "UTC"⟩, [], none⟩ ⟨1, 5, "UTC"⟩ = .ok st1
        ∧ schedule_refresh st1 ⟨2, 5, "UTC"⟩ = .ok st2
        ∧ armedRefreshMap st1 = [(⟨1, 5, "UTC"⟩, .refreshCb)]
        ∧ armedRefreshMap st2 = [(⟨2, 5, "UTC"⟩, .refreshCb)]
        ∧ (∀ i, (⟨⟨[], 0, "UTC"⟩, [], none⟩ : PrayerScheduler).refresh_job_id = some i →
            ∀ j ∈ st1.sched.jobs, j.id ≠ i)
        ∧ (∀ i, st1.refresh_job_id = some i → ∀ j ∈ st2.sched.jobs, j.id ≠ i) :=
  ⟨by decide,
   c8_schedule_refresh_replace ⟨⟨[], 0, "UTC"⟩, [], none⟩ ⟨1, 5, "UTC"⟩ ⟨2, 5, "UTC"⟩ (by decide)⟩

/-- C9 (code bug): cancelling an already-fired or unknown job id is a silent
no-op ONLY on the prayer-job path (`_clear_prayer_jobs` wraps removal in
`suppress_not_found`); `schedule_refresh` removes the recorded refresh job
WITHOUT that guard, so once the one-off refresh job has fired (APScheduler
drops a fired date-trigger job from its store), the next `schedule_refresh`
raises `JobLookupError` instead of replacing it — it arms nothing. -/
theorem c9_stale_refresh_cancel_raises :
    remove_job ⟨[], 1, "UTC"⟩ 0 = .error (.jobLookupError 0)
    ∧ schedule_refresh ⟨⟨[], 1, "UTC"⟩, [], some 0⟩ ⟨1, 5, "UTC"⟩ = .error (.jobLookupError 0)
    ∧ remove_job_suppressed ⟨[], 1, "UTC"⟩ 0 = ⟨[], 1, "UTC"⟩
    ∧ schedule_prayers ⟨⟨[], 1, "UTC"⟩, [0], none⟩ [] ⟨0, 0, "UTC"⟩ = ⟨⟨[], 1, "UTC"⟩, [], none⟩ := by
  refine ⟨by decide, by decide, by decide, by decide⟩

theorem schedule_prayers_eq (st : PrayerScheduler) (prayers : List PrayerInfo) (now : Dt) :
    schedule_prayers st prayers now =
      { sched := { jobs := (st.sched.jobs.filter fun j => ! st.jobs.contains j.id)
                      ++ newJobsFor st.sched.nextId now prayers,
                   nextId := st.sched.nextId + (newJobsFor st.sched.nextId now prayers).length,
                   tz := st.sched.tz },
        jobs := (newJobsFor st.sched.nextId now prayers).map TimerJob.id,
        refresh_job_id := st.refresh_job_id } := by
  unfold schedule_prayers
  rw [clear_prayer_jobs_eq, addPrayerJobs_eq]
  simp

theorem goodSched_schedule_prayers (st : PrayerScheduler) (prayers : List PrayerInfo)
    (now : Dt) (hg : goodSched st = true) :
    goodSched (schedule_prayers st prayers now) = true := by
  obtain ⟨h1, h2, h3⟩ := (goodSched_iff st).mp hg
  rw [schedule_prayers_eq]
  apply (goodSched_iff _).mpr
  dsimp only
  refine ⟨?_, ?_, ?_⟩
  · intro j hj
    rcases List.mem_append.mp hj with hj | hj
    · have := h1 j (List.mem_filter.mp hj).1; omega
    · have := newJobsFor_id_bounds prayers st.sched.nextId now j hj; omega
  · intro i hi
    obtain ⟨k, hk, hkid⟩ := List.mem_map.mp hi
    have := newJobsFor_id_bounds prayers st.sched.nextId now k hk
    omega
  · intro i hi
    obtain ⟨⟨jw, hjw, hjwid⟩, hnot⟩ := h3 i hi
    constructor
    · refine ⟨jw, List.mem_append_left _ (List.mem_filter.mpr ⟨hjw, ?_⟩), hjwid⟩
      have hcf : st.jobs.contains jw.id = false := by
        cases hc : st.jobs.contains jw.id
        · rfl
        · exact absurd (hjwid ▸ List.elem_iff.mp hc) hnot
      rw [hcf]; rfl
    · intro hmem
      obtain ⟨k, hk, hkid⟩ := List.mem_map.mp hmem
      have hb := (newJobsFor_id_bounds prayers st.sched.nextId now k hk).1
      have := h1 jw hjw
      omega

theorem goodSched_ensure (cur : Option PrayerScheduler) (tzName : String)
    (hg : ∀ s, cur = some s → goodSched s = true) :
    goodSched (ensure_scheduler cur tzName) = true := by
  cases cur with
  | none => rfl
  | some s =>
    simp only [ensure_scheduler]
    by_cases h : s.sched.tz = tzName
    · rw [if_pos h]; exact hg s rfl
    · rw [if_neg h]; rfl

/-- C5: on a successful refresh cycle the refresh job is armed at exactly
00:05 local time (in the prayers' timezone) on the calendar day following the
first prayer's date, with the refresh re-invocation callback. -/
theorem c5_next_refresh_armed (app : AppState) (strings : List (String × String))
    (day : PrayerDay) (now : Dt) (p0 : PrayerInfo) (rest : List PrayerInfo)
    (hday : day.prayers = p0 :: rest)
    (hg : ∀ s, app.scheduler = some s → goodSched s = true)
    (htz : p0.time.tz ≠ "") :
    ∃ app2 s2, handle_refresh_success app strings day now = .ok app2
      ∧ app2.scheduler = some s2
      ∧ armedRefreshMap s2 = [(⟨p0.time.day + 1, 5, p0.time.tz⟩, .refreshCb)]
      ∧ app2.status = lookupStrD strings "updated" "Prayer times updated."
      ∧ app2.current_prayer_day = some day := by
  have hg0 : goodSched (ensure_scheduler app.scheduler p0.time.tz) = true :=
    goodSched_ensure _ _ hg
  have hg1 : goodSched (schedule_prayers (ensure_scheduler app.scheduler p0.time.tz)
      (p0 :: rest) now) = true :=
    goodSched_schedule_prayers _ _ _ hg0
  obtain ⟨st2, hok, -, ha2, -, -, -⟩ :=
    schedule_refresh_spec (schedule_prayers (ensure_scheduler app.scheduler p0.time.tz)
      (p0 :: rest) now) (next_refresh_time p0.time) hg1
  have hnrt : next_refresh_time p0.time = ⟨p0.time.day + 1, 5, p0.time.tz⟩ := by
    unfold next_refresh_time
    rw [if_neg htz]
  have hmain : handle_refresh_success app strings day now
      = .ok { app with
              scheduler := some st2
              current_prayer_day := some day
              status := lookupStrD strings "updated" "Prayer times updated." } := by
    simp only [handle_refresh_success, hday, hok]
  exact ⟨_, st2, hmain, rfl, by rw [ha2, hnrt], rfl, rfl⟩

/-- Witness for C5: one future Fajr on day 20000 in Africa/Casablanca; the
refresh job lands at 00:05 on day 20001 in the same zone. -/
theorem c5_witness :
    (⟨⟨"T", "C", none, none, some "UTC"⟩, "", 20000,
        [⟨"Fajr", ⟨20000, 310, "Africa/Casablanca"⟩⟩]⟩ : PrayerDay).prayers
      = ⟨"Fajr", ⟨20000, 310, "Africa/Casablanca"⟩⟩ :: []
    ∧ (∀ s : PrayerScheduler,
        (⟨none, "", [], none⟩ : AppState).scheduler = some s → goodSched s = true)
    ∧ ∃ app2 s2,
        handle_refresh_success ⟨none, "", [], none⟩ []
            ⟨⟨"T", "C", none, none, some "UTC"⟩, "", 20000,
              [⟨"Fajr", ⟨20000, 310, "Africa/Casablanca"⟩⟩]⟩
            ⟨20000, 10, "Africa/Casablanca"⟩ = .ok app2
        ∧ app2.scheduler = some s2
        ∧ armedRefreshMap s2 = [(⟨20000 + 1, 5, "Africa/Casablanca"⟩, .refreshCb)]
        ∧ app2.status = lookupStrD [] "updated" "Prayer times updated."
        ∧ app2.current_prayer_day = some
            ⟨⟨"T", "C", none, none, some "UTC"⟩, "", 20000,
              [⟨"Fajr", ⟨20000, 310, "Africa/Casablanca"⟩⟩]⟩ :=
  ⟨rfl, fun s h => Option.noConfusion h,
   c5_next_refresh_armed ⟨none, "", [], none⟩ []
     ⟨⟨"T", "C", none, none, some "UTC"⟩, "", 20000,
       [⟨"Fajr", ⟨20000, 310, "Africa/Casablanca"⟩⟩]⟩
     ⟨20000, 10, "Africa/Casablanca"⟩
     ⟨"Fajr", ⟨20000, 310, "Africa/Casablanca"⟩⟩ [] rfl
     (fun s h => Option.noConfusion h) (by decide)⟩

theorem parse_time_string_ok_fields (s tzName : String) (d : Int) (t : Dt)
    (h : parse_time_string s tzName d = .ok t) : t.tz = tzName ∧ t.day = d := by
  simp only [parse_time_string] at h
  unfold parseClean at h
  repeat' split at h
  all_goals first
    | (injection h with h; subst h; exact ⟨rfl, rfl⟩)
    | cases h

theorem buildPrayers_ok_shape (names : List String) :
    ∀ (timings : List (String × String)) (tzName : String) (d : Int) (l : List PrayerInfo),
      buildPrayers timings tzName d names = .ok l →
      l.map PrayerInfo.name = names ∧ l.length = names.length
        ∧ ∀ q ∈ l, q.time.tz = tzName := by
  induction names with
  | nil =>
    intro timings tz d l h
    unfold buildPrayers at h
    injection h with h
    subst h
    exact ⟨rfl, rfl, fun q hq => absurd hq (List.not_mem_nil q)⟩
  | cons p rest ih =>
    intro timings tz d l h
    unfold buildPrayers at h
    cases hp : parse_time_string (lookupStrD timings p "00:00") tz d with
    | error e => rw [hp] at h; cases h
    | ok t =>
      rw [hp] at h
      cases hr : buildPrayers timings tz d rest with
      | error e => rw [hr] at h; cases h
      | ok others =>
        rw [hr] at h
        injection h with h
        subst h
        obtain ⟨hn, hl, htz⟩ := ih timings tz d others hr
        refine ⟨by simp [hn], by simp [hl], ?_⟩
        intro q hq
        rcases List.mem_cons.mp hq with hq | hq
        · subst hq
          exact (parse_time_string_ok_fields _ _ _ _ hp).1
        · exact htz q hq

/-- C4 (amended): every `PrayerDay` produced by `fetch_prayer_times` has
exactly 5 prayers, in the order Fajr, Dhuhr, Asr, Maghrib, Isha, all carrying
one shared timezone (also recorded on the returned location).  The times are
NOT necessarily strictly increasing — see the counterexample. -/
theorem c4_fetched_day_shape (resp : Except PyExc ApiResponse) (loc : LocationInfo)
    (d : Int) (tzv : String → Bool) (day : PrayerDay)
    (h : fetch_prayer_times resp loc d tzv = .ok day) :
    day.prayers.length = 5
    ∧ day.prayers.map PrayerInfo.name = PRAYER_ORDER
    ∧ ∃ tzName, day.location.timezone = some tzName
        ∧ ∀ q ∈ day.prayers, q.time.tz = tzName := by
  cases resp with
  | error e => cases h
  | ok r =>
    simp only [fetch_prayer_times] at h
    split at h
    · cases h
    · split at h
      · cases h
      · split at h
        · cases h
        · rename_i prayers heq
          injection h with h
          subst h
          obtain ⟨hn, hl, htz⟩ := buildPrayers_ok_shape PRAYER_ORDER _ _ _ _ heq
          exact ⟨by rw [hl]; rfl, hn,
            ⟨resolve_timezone loc r.payload tzv, rfl, htz⟩⟩

/-- C4 counterexample: a well-formed 200 response whose timings dict is empty
makes every prayer default to 00:00, so the five times are all equal — the
strict-increase part of the claimed invariant fails. -/
theorem c4_counterexample :
    fetch_prayer_times
        (Except.ok ⟨true, ⟨some 200, none, [], none, "", none, "", none, some "UTC", none, none⟩⟩)
        ⟨"T", "C", none, none, none⟩ 0 (fun _ => true)
      = .ok ⟨⟨"T", "C", none, none, some "UTC"⟩, "", 0,
          [⟨"Fajr", ⟨0, 0, "UTC"⟩⟩, ⟨"Dhuhr", ⟨0, 0, "UTC"⟩⟩, ⟨"Asr", ⟨0, 0, "UTC"⟩⟩,
           ⟨"Maghrib", ⟨0, 0, "UTC"⟩⟩, ⟨"Isha", ⟨0, 0, "UTC"⟩⟩]⟩
    ∧ strictlyIncB [⟨"Fajr", ⟨0, 0, "UTC"⟩⟩, ⟨"Dhuhr", ⟨0, 0, "UTC"⟩⟩, ⟨"Asr", ⟨0, 0, "UTC"⟩⟩,
        ⟨"Maghrib", ⟨0, 0, "UTC"⟩⟩, ⟨"Isha", ⟨0, 0, "UTC"⟩⟩] = false := by
  exact ⟨by rfl, by rfl⟩

/-- Witness for C4 (amended) at the concrete empty-timings response. -/
theorem c4_witness :
    fetch_prayer_times
        (Except.ok ⟨true, ⟨some 200, none, [], none, "", none, "", none, some "UTC", none, none⟩⟩)
        ⟨"T", "C", none, none, none⟩ 0 (fun _ => true)
      = .ok ⟨⟨"T", "C", none, none, some "UTC"⟩, "", 0,
          [⟨"Fajr", ⟨0, 0, "UTC"⟩⟩, ⟨"Dhuhr", ⟨0, 0, "UTC"⟩⟩, ⟨"Asr", ⟨0, 0, "UTC"⟩⟩,
           ⟨"Maghrib", ⟨0, 0, "UTC"⟩⟩, ⟨"Isha", ⟨0, 0, "UTC"⟩⟩]⟩
    ∧ ((⟨⟨"T", "C", none, none, some "UTC"⟩, "", 0,
          [⟨"Fajr", ⟨0, 0, "UTC"⟩⟩, ⟨"Dhuhr", ⟨0, 0, "UTC"⟩⟩, ⟨"Asr", ⟨0, 0, "UTC"⟩⟩,
           ⟨"Maghrib", ⟨0, 0, "UTC"⟩⟩, ⟨"Isha", ⟨0, 0, "UTC"⟩⟩]⟩ : PrayerDay).prayers.length = 5
        ∧ (⟨⟨"T", "C", none, none, some "UTC"⟩, "", 0,
          [⟨"Fajr", ⟨0, 0, "UTC"⟩⟩, ⟨"Dhuhr", ⟨0, 0, "UTC"⟩⟩, ⟨"Asr", ⟨0, 0, "UTC"⟩⟩,
           ⟨"Maghrib", ⟨0, 0, "UTC"⟩⟩, ⟨"Isha", ⟨0, 0, "UTC"⟩⟩]⟩ : PrayerDay).prayers.map
            PrayerInfo.name = PRAYER_ORDER
        ∧ ∃ tzName, (⟨⟨"T", "C", none, none, some "UTC"⟩, "", 0,
            [⟨"Fajr", ⟨0, 0, "UTC"⟩⟩, ⟨"Dhuhr", ⟨0, 0, "UTC"⟩⟩, ⟨"Asr", ⟨0, 0, "UTC"⟩⟩,
             ⟨"Maghrib", ⟨0, 0, "UTC"⟩⟩, ⟨"Isha", ⟨0, 0, "UTC"⟩⟩]⟩ : PrayerDay).location.timezone
              = some tzName
            ∧ ∀ q ∈ (⟨⟨"T", "C", none, none, some "UTC"⟩, "", 0,
                [⟨"Fajr", ⟨0, 0, "UTC"⟩⟩, ⟨"Dhuhr", ⟨0, 0, "UTC"⟩⟩, ⟨"Asr", ⟨0, 0, "UTC"⟩⟩,
                 ⟨"Maghrib", ⟨0, 0, "UTC"⟩⟩, ⟨"Isha", ⟨0, 0, "UTC"⟩⟩]⟩ : PrayerDay).prayers,
                q.time.tz = tzName) :=
  ⟨by rfl,
   c4_fetched_day_shape
     (Except.ok ⟨true, ⟨some 200, none, [], none, "", none, "", none, some "UTC", none, none⟩⟩)
     ⟨"T", "C", none, none, none⟩ 0 (fun _ => true) _ (by rfl)⟩

/-- C7 counterexample: the prayer-time service itself raises a `RuntimeError`
when the API payload's code is not 200 — a fetch failure — yet the refresh
error handler classifies every `RuntimeError` as a location problem, so this
fetch failure surfaces the location-specific message, not the generic
fetch-failure one. -/
theorem c7_counterexample :
    fetch_prayer_times
        (Except.ok ⟨true, ⟨some 500, some "Bad Request", [], none, "", none, "", none,
          some "UTC", none, none⟩⟩)
        ⟨"T", "C", none, none, none⟩ 0 (fun _ => true)
      = .error (.runtimeError "Invalid response from AlAdhan API: Bad Request")
    ∧ (handle_refresh_error ⟨none, "", [], none⟩ []
        (.runtimeError "Invalid response from AlAdhan API: Bad Request")).status
      = "Unable to detect location. Please set it manually."
    ∧ "Unable to detect location. Please set it manually."
      ≠ "Unable to fetch prayer times. Please try again." := by
  exact ⟨by rfl, by rfl, by decide⟩

/-- C7 (amended): the surfaced message is the location-specific one exactly
when the raised exception is a `RuntimeError`.  Location resolution only ever
fails with `RuntimeError`, so location failures do get the location message —
but the prayer-time service's invalid-payload failure is a `RuntimeError` too
and is classified the same way; all non-`RuntimeError` failures get the
generic fetch message. -/
theorem c7_message_selection (app : AppState) (e : PyExc) :
    ((handle_refresh_error app [] e).status
        = "Unable to detect location. Please set it manually." ↔ e.isRuntimeError = true)
    ∧ (∀ (auto : Bool) (detect : Except PyExc LocationInfo)
        (current cfgFallback : Option LocationInfo) (e2 : PyExc),
        resolve_location auto detect current cfgFallback = .error e2 →
        e2.isRuntimeError = true) := by
  constructor
  · have hsel : (handle_refresh_error app [] e).status
        = if e.isRuntimeError then "Unable to detect location. Please set it manually."
          else "Unable to fetch prayer times. Please try again." := by
      unfold handle_refresh_error
      cases e <;> rfl
    rw [hsel]
    cases he : e.isRuntimeError
    · simp only [Bool.false_eq_true, if_false]
      exact ⟨fun hs => absurd hs (by decide), fun hb => hb.elim⟩
    · simp
  · intro auto detect current cfg e2 h
    unfold resolve_location at h
    repeat' split at h
    all_goals first
      | (injection h with h; subst h; rfl)
      | cases h

/-- Witness for C7 (amended) at a concrete non-RuntimeError failure. -/
theorem c7_witness :
    ((handle_refresh_error ⟨none, "", [], none⟩ [] PyExc.httpError).status
        = "Unable to detect location. Please set it manually."
      ↔ PyExc.isRuntimeError PyExc.httpError = true)
    ∧ (∀ (auto : Bool) (detect : Except PyExc LocationInfo)
        (current cfgFallback : Option LocationInfo) (e2 : PyExc),
        resolve_location auto detect current cfgFallback = .error e2 →
        e2.isRuntimeError = true) :=
  c7_message_selection ⟨none, "", [], none⟩ PyExc.httpError
